import Mathlib

/-!
Verification of `src/hterm/js/google_relay.js` — the Google HTTP-to-SSH
relay stream client (`hterm.NaSSH.GoogleRelay.Socket`).

Strings are embedded as `List Char`.  The stateful socket object is
embedded as an explicit record `SocketState` carrying the mutable fields
of the JS object (`backoffMS_`, `writeQueue_`, `writeCount_`,
`readCount_`) together with observable effect traces: network requests
sent, data delivered to the consumer, overlays shown, and retry timers
scheduled by `setTimeout`.  Each JS method becomes a state-transition
function of the same name (minus the trailing underscore).
-/

set_option autoImplicit false

namespace GoogleRelay

/-- Maximum length of message that can be sent, from
`GoogleRelay.Socket.prototype.maxMessageLength = 1024` (line 186). -/
def maxMessageLength : Nat := 1024

/-- The per-character action of `base64ToWebSafe_`'s
`s.replace(/[+/=]/g, ...)` (lines 292-300): `+` becomes `-`, `/` becomes
`_`, `=` is deleted, every other character is kept. -/
def base64ToWebSafeChar (c : Char) : Option Char :=
  if c = '+' then some '-'
  else if c = '/' then some '_'
  else if c = '=' then none
  else some c

/-- `base64ToWebSafe_(s)` (lines 292-300): web-safe encoding of a standard
base64 string. -/
def base64ToWebSafe (s : List Char) : List Char :=
  s.filterMap base64ToWebSafeChar

/-- The per-character action of `webSafeToBase64_`'s
`s.replace(/[-_]/g, ...)` (line 279): `-` becomes `+`, `_` becomes `/`,
every other character is kept. -/
def webSafeChar (c : Char) : Char :=
  if c = '-' then '+'
  else if c = '_' then '/'
  else c

/-- `webSafeToBase64_(s)` (lines 278-290): character mapping followed by
padding restoration keyed on `s.length % 4`.  The branch that throws
`Invalid web safe base64 string length` is embedded as `none`; the
`this.close()` side effect of that branch is modelled at the call site
(`onReadReady`). -/
def webSafeToBase64 (s : List Char) : Option (List Char) :=
  let m := s.map webSafeChar
  if m.length % 4 = 2 then some (m ++ ['=', '='])
  else if m.length % 4 = 3 then some (m ++ ['='])
  else if m.length % 4 ≠ 0 then none
  else some m

/-- Which request a retry closure re-issues: `resumeRead_` for the read
request, `serviceWriteQueue_` for the write request (lines 370-376). -/
inductive ReqKind where
  | read
  | write
  deriving Repr, DecidableEq

/-- The mutable fields of a `GoogleRelay.Socket` (constructor,
lines 151-174) together with observable effect traces:
`sentReads` records the `rcnt` of each `/read` request sent,
`sentWrites` records the `(wcnt, data)` of each `/write` request sent,
`delivered` records each payload passed to `onDataAvailable`,
`overlays` records the duration of each `showOverlay` call, and
`pendingTimers` records the retry closures scheduled via `setTimeout`
with their delays, in scheduling order. -/
structure SocketState where
  backoffMS : Nat
  writeQueue : List (List Char)
  writeCount : Nat
  readCount : Nat
  closed : Bool
  pendingTimers : List (ReqKind × Nat)
  sentReads : List Nat
  sentWrites : List (Nat × List Char)
  delivered : List (List Char)
  overlays : List Nat
  deriving Repr, DecidableEq

/-- The freshly constructed socket (lines 151-174): zero counters, zero
backoff, empty write queue, nothing sent or scheduled. -/
def initSocket : SocketState :=
  { backoffMS := 0
    writeQueue := []
    writeCount := 0
    readCount := 0
    closed := false
    pendingTimers := []
    sentReads := []
    sentWrites := []
    delivered := []
    overlays := [] }

/-- `resumeRead_` (lines 231-235): opens and sends the `/read` request
with the current `readCount_` as `rcnt`.  The JS body is unconditional —
it consults no lifecycle state. -/
def resumeRead (s : SocketState) : SocketState :=
  { s with sentReads := s.sentReads ++ [s.readCount] }

/-- `serviceWriteQueue_` (lines 267-276): if the queue is empty do
nothing, otherwise send the head chunk with the current `writeCount_` as
`wcnt`.  The queue itself is not modified here. -/
def serviceWriteQueue (s : SocketState) : SocketState :=
  match s.writeQueue with
  | [] => s
  | msg :: _ => { s with sentWrites := s.sentWrites ++ [(s.writeCount, msg)] }

/-- `clearBackoff_` (lines 357-362): reset `backoffMS_` to 0. -/
def clearBackoff (s : SocketState) : SocketState :=
  { s with backoffMS := 0 }

/-- Modelled from the spec: `hterm.NaSSH.Stream.prototype.close` is not
under `src/` (only this subclass is); per the spec's lifecycle it moves
the stream to the terminal Closed state.  It cannot remove an entry from
`pendingTimers`: `onRequestError_` (line 386, in `src/`) discards the
`setTimeout` id, so no code can pass it to `clearTimeout`, and the
scheduled closure invokes `resumeRead_` / `serviceWriteQueue_` which read
no lifecycle state; nor can the base class touch the subclass fields
`readRequest_` / `writeRequest_`. -/
def closeStream (s : SocketState) : SocketState :=
  { s with closed := true }

/-- The retry delay `onRequestError_` will use from state `s`: the
current `backoffMS_` after the `if (!this.backoffMS_) this.backoffMS_ = 1`
normalization (lines 367-368). -/
def nextDelay (s : SocketState) : Nat :=
  if s.backoffMS = 0 then 1 else s.backoffMS

/-- `onRequestError_` (lines 364-389): normalize `backoffMS_` from 0 to
1; pick the retry closure from the failing request; if the delay is at
least 1000 show the retry overlay for delay + 500 ms; schedule the retry
via `setTimeout` after the delay (the returned timer id is discarded);
finally set `backoffMS_ = backoffMS_ * 2 + 93`. -/
def onRequestError (t : ReqKind) (s : SocketState) : SocketState :=
  let d := nextDelay s
  let s1 := if 1000 ≤ d then { s with overlays := s.overlays ++ [d + 500] } else s
  { s1 with
    pendingTimers := s1.pendingTimers ++ [(t, d)]
    backoffMS := d * 2 + 93 }

/-- A scheduled retry closure firing: `resumeRead_.bind(this)` or
`serviceWriteQueue_.bind(this)` (lines 372, 375). -/
def runRetry (t : ReqKind) (s : SocketState) : SocketState :=
  match t with
  | .read => resumeRead s
  | .write => serviceWriteQueue s

/-- The event loop firing the oldest pending `setTimeout` retry.  The JS
engine fires the timer regardless of the socket's state; the closure then
runs `resumeRead_` / `serviceWriteQueue_` verbatim. -/
def fireTimer (s : SocketState) : SocketState :=
  match s.pendingTimers with
  | [] => s
  | (t, _) :: rest => runRetry t { s with pendingTimers := rest }

/-- `onReadReady_` (lines 308-328) for a completed (`readyState == 4`)
read request with the given HTTP status and response text: 410 closes the
stream; any other non-200 status goes to the error handler (the JS writes
`this.onRequestError(e)` — without trailing underscore — a method not
under `src/`; modelled from the spec, which routes every non-200/410
status into the backoff recovery, as dispatching to `onRequestError_`);
on 200, `readCount_` is advanced by `floor(length * 3 / 4)` first, then
the body is decoded — a decode failure closes the stream and the thrown
exception aborts the rest of the handler — then the decoded data is
delivered, backoff cleared, and the next read issued. -/
def onReadReady (status : Nat) (body : List Char) (s : SocketState) :
    SocketState :=
  if status = 410 then closeStream s
  else if status ≠ 200 then onRequestError .read s
  else
    let s1 := { s with readCount := s.readCount + body.length * 3 / 4 }
    match webSafeToBase64 body with
    | none => closeStream s1
    | some d => resumeRead (clearBackoff { s1 with delivered := s1.delivered ++ [d] })

/-- `onWriteDone_` (lines 336-355) for a completed write request: 410
closes the stream; any other non-200 status goes to the error handler
(same `this.onRequestError(e)` dispatch note as `onReadReady`); on 200
the head chunk is popped, `writeCount_` advanced by
`floor(headLength * 3 / 4)`, backoff cleared, and the next chunk
serviced.  The JS reads `this.writeQueue_[0].length` before shifting; a
200 completion presupposes a sent head chunk, so the queue is non-empty
there; the empty case is embedded as a no-op. -/
def onWriteDone (status : Nat) (s : SocketState) : SocketState :=
  if status = 410 then closeStream s
  else if status ≠ 200 then onRequestError .write s
  else
    match s.writeQueue with
    | [] => s
    | msg :: rest =>
      serviceWriteQueue (clearBackoff
        { s with writeQueue := rest
                 writeCount := s.writeCount + msg.length * 3 / 4 })

/-- The `while (data.length > this.maxMessageLength)` splitting loop of
`asyncWrite` (lines 253-258), returning the chunks pushed in order:
leading chunks of exactly `maxMessageLength` characters, then the final
remainder (pushed even when it is the whole string). -/
def splitChunks (l : List Char) : List (List Char) :=
  if maxMessageLength < l.length then
    l.take maxMessageLength :: splitChunks (l.drop maxMessageLength)
  else [l]
  termination_by l.length
  decreasing_by
    simp only [List.length_drop, maxMessageLength] at *
    omega

/-- `asyncWrite` (lines 243-262) without a write callback: empty data is
ignored; otherwise `needService` is latched before pushing, the data is
web-safe encoded and split into chunks appended to `writeQueue_`, and the
queue is serviced immediately if it was empty before the call. -/
def asyncWrite (data : List Char) (s : SocketState) : SocketState :=
  if data.length = 0 then s
  else
    let chunks := splitChunks (base64ToWebSafe data)
    let s1 := { s with writeQueue := s.writeQueue ++ chunks }
    if s.writeQueue.isEmpty then serviceWriteQueue s1 else s1

/-- A character of the standard base64 alphabet (no padding). -/
def isB64Char (c : Char) : Bool :=
  ('A' ≤ c && c ≤ 'Z') || ('a' ≤ c && c ≤ 'z') || ('0' ≤ c && c ≤ '9') ||
    c = '+' || c = '/'

/-- A valid standard base64 string: padded, length divisible by 4, made of
alphabet characters followed by at most two `=` padding characters. -/
def isValidBase64 (l : List Char) : Prop :=
  l.length % 4 = 0 ∧
    ∃ b p, l = b ++ List.replicate p '=' ∧ p ≤ 2 ∧ ∀ c ∈ b, isB64Char c = true

/-- The total character map underlying `base64ToWebSafe` on non-padding
characters. -/
def toWebChar (c : Char) : Char :=
  if c = '+' then '-' else if c = '/' then '_' else c

lemma base64ToWebSafeChar_of_ne (c : Char) (hc : c ≠ '=') :
    base64ToWebSafeChar c = some (toWebChar c) := by
  unfold base64ToWebSafeChar toWebChar
  split_ifs <;> simp_all

lemma base64ToWebSafe_of_no_pad (b : List Char) (hb : ∀ c ∈ b, c ≠ '=') :
    base64ToWebSafe b = b.map toWebChar := by
  induction b with
  | nil => rfl
  | cons c cs ih =>
    rw [base64ToWebSafe, List.filterMap_cons,
        base64ToWebSafeChar_of_ne c (hb c (by simp))]
    rw [base64ToWebSafe] at ih
    rw [ih fun x hx => hb x (by simp [hx]), List.map_cons]

lemma base64ToWebSafe_replicate_pad (p : Nat) :
    base64ToWebSafe (List.replicate p '=') = [] := by
  induction p with
  | zero => rfl
  | succ n ih =>
    rw [List.replicate_succ, base64ToWebSafe, List.filterMap_cons]
    have h : base64ToWebSafeChar '=' = none := rfl
    rw [h]
    exact ih

lemma webSafeChar_toWebChar (c : Char) (hc : isB64Char c = true) :
    webSafeChar (toWebChar c) = c := by
  by_cases h1 : c = '+'
  · subst h1; rfl
  by_cases h2 : c = '/'
  · subst h2; rfl
  by_cases h3 : c = '-'
  · subst h3; exact absurd hc (by decide)
  by_cases h4 : c = '_'
  · subst h4; exact absurd hc (by decide)
  rw [toWebChar, if_neg h1, if_neg h2, webSafeChar, if_neg h3, if_neg h4]

/-- Claim C3: for every valid standard base64 string `x` (padded, length
divisible by 4), `webSafeToBase64_(base64ToWebSafe_(x)) == x`, and
`webSafeToBase64_` does not raise the invalid-length error (= returns
`some`, not `none`) on such round-trip input. -/
theorem roundtrip_webSafe (l : List Char) (h : isValidBase64 l) :
    webSafeToBase64 (base64ToWebSafe l) = some l := by
  obtain ⟨hlen, b, p, rfl, hp, hb⟩ := h
  have hbne : ∀ c ∈ b, c ≠ '=' := by
    intro c hc he
    subst he
    exact absurd (hb _ hc) (by decide)
  rw [base64ToWebSafe] at *
  rw [List.filterMap_append]
  rw [show List.filterMap base64ToWebSafeChar b = base64ToWebSafe b from rfl,
      show List.filterMap base64ToWebSafeChar (List.replicate p '=') =
        base64ToWebSafe (List.replicate p '=') from rfl]
  rw [base64ToWebSafe_of_no_pad b hbne, base64ToWebSafe_replicate_pad,
      List.append_nil]
  have hmap : (b.map toWebChar).map webSafeChar = b := by
    rw [List.map_map]
    have : ∀ c ∈ b, (webSafeChar ∘ toWebChar) c = id c := by
      intro c hc
      exact webSafeChar_toWebChar c (hb c hc)
    rw [List.map_congr_left this, List.map_id]
  have hlen' : (b.length + p) % 4 = 0 := by
    simpa [List.length_append, List.length_replicate] using hlen
  rw [webSafeToBase64]
  simp only [hmap, List.length_map]
  interval_cases p
  · have h0 : b.length % 4 = 0 := by omega
    simp [h0]
  · have h3 : b.length % 4 = 3 := by omega
    simp [h3]
  · have h2 : b.length % 4 = 2 := by omega
    simp [h2]

theorem roundtrip_webSafe_witness :
    isValidBase64 ['Q', 'Q', '=', '='] ∧
      webSafeToBase64 (base64ToWebSafe ['Q', 'Q', '=', '=']) =
        some ['Q', 'Q', '=', '='] :=
  have hv : isValidBase64 ['Q', 'Q', '=', '='] :=
    ⟨by decide, ['Q', 'Q'], 2, rfl, by decide, by decide⟩
  ⟨hv, roundtrip_webSafe _ hv⟩

lemma webSafeToBase64_none_of_mod_one (l : List Char) (h : l.length % 4 = 1) :
    webSafeToBase64 l = none := by
  rw [webSafeToBase64]
  simp only [List.length_map]
  split_ifs <;> first | rfl | omega

/-- Claim C8: `webSafeToBase64_` maps `-` to `+` and `_` to `/`, then
appends `==` when the input length mod 4 is 2, `=` when it is 3, nothing
when it is 0, and for the only other remainder (1) it closes the stream
and raises the fatal invalid-length error instead of returning a value. -/
theorem webSafeToBase64_spec (l : List Char) (s : SocketState) :
    webSafeChar '-' = '+' ∧ webSafeChar '_' = '/' ∧
    webSafeToBase64 l =
      (if l.length % 4 = 2 then some (l.map webSafeChar ++ ['=', '='])
       else if l.length % 4 = 3 then some (l.map webSafeChar ++ ['='])
       else if l.length % 4 = 0 then some (l.map webSafeChar)
       else none) ∧
    (l.length % 4 = 1 →
      (onReadReady 200 l s).closed = true ∧
        (onReadReady 200 l s).delivered = s.delivered) := by
  refine ⟨rfl, rfl, ?_, ?_⟩
  · rw [webSafeToBase64]
    simp only [List.length_map]
    split_ifs <;> first | rfl | omega
  · intro h1
    rw [onReadReady]
    simp only [if_neg (by omega : ¬(200 : Nat) = 410),
               if_neg (by simp : ¬(200 : Nat) ≠ 200)]
    rw [webSafeToBase64_none_of_mod_one l h1]
    exact ⟨rfl, rfl⟩

theorem webSafeToBase64_spec_witness :
    ((['A'] : List Char).length % 4 = 1) ∧
      (onReadReady 200 ['A'] initSocket).closed = true :=
  ⟨by decide, ((webSafeToBase64_spec ['A'] initSocket).2.2.2 (by decide)).1⟩

/-- Claim C10: when a read completes with status 200, `readCount_` is
advanced by `floor(responseLength * 3 / 4)` before the payload is
decoded; if `webSafeToBase64_` then raises the malformed-encoding error
the stream closes with `readCount_` already advanced for the undelivered
chunk, no data is delivered, and no further read request is issued by
this handler. -/
theorem readCount_advances_before_decode (s : SocketState) (body : List Char)
    (h : webSafeToBase64 body = none) :
    (onReadReady 200 body s).readCount = s.readCount + body.length * 3 / 4 ∧
      (onReadReady 200 body s).delivered = s.delivered ∧
      (onReadReady 200 body s).closed = true ∧
      (onReadReady 200 body s).sentReads = s.sentReads := by
  rw [onReadReady]
  simp only [if_neg (by omega : ¬(200 : Nat) = 410),
             if_neg (by simp : ¬(200 : Nat) ≠ 200)]
  rw [h]
  exact ⟨rfl, rfl, rfl, rfl⟩

theorem readCount_advances_before_decode_witness :
    webSafeToBase64 ['A', 'A', 'A', 'A', 'A'] = none ∧
      (onReadReady 200 ['A', 'A', 'A', 'A', 'A'] initSocket).readCount = 3 ∧
      (onReadReady 200 ['A', 'A', 'A', 'A', 'A'] initSocket).delivered = [] ∧
      (onReadReady 200 ['A', 'A', 'A', 'A', 'A'] initSocket).closed = true :=
  have h := readCount_advances_before_decode initSocket
    ['A', 'A', 'A', 'A', 'A'] rfl
  ⟨rfl, h.1, h.2.1, h.2.2.1⟩

lemma onRequestError_backoffMS (t : ReqKind) (s : SocketState) :
    (onRequestError t s).backoffMS = nextDelay s * 2 + 93 := by
  rw [onRequestError]

lemma onRequestError_pendingTimers (t : ReqKind) (s : SocketState) :
    (onRequestError t s).pendingTimers =
      s.pendingTimers ++ [(t, nextDelay s)] := by
  rw [onRequestError]
  split_ifs <;> rfl

lemma onRequestError_overlays (t : ReqKind) (s : SocketState) :
    (onRequestError t s).overlays =
      s.overlays ++ (if 1000 ≤ nextDelay s then [nextDelay s + 500] else []) := by
  rw [onRequestError]
  split_ifs with h
  · rfl
  · simp

/-- Claim C4: starting from `backoffMS == 0`, each consecutive failure
handled by `onRequestError_` schedules its retry after the current
(0-normalized-to-1) `backoffMS` and then updates `backoffMS` to
`backoffMS * 2 + 93`, so five consecutive failures from a fresh state
schedule delays exactly 1, 95, 283, 659, 1411 and the delays satisfy
`next = prev * 2 + 93`; a success (`clearBackoff_`) resets `backoffMS`
to 0. -/
theorem backoff_sequence :
    (onRequestError .read (onRequestError .read (onRequestError .read
        (onRequestError .read (onRequestError .read
          initSocket))))).pendingTimers =
      [(.read, 1), (.read, 95), (.read, 283), (.read, 659), (.read, 1411)] ∧
    (∀ (t : ReqKind) (s : SocketState),
      (onRequestError t s).pendingTimers =
        s.pendingTimers ++ [(t, nextDelay s)]) ∧
    (∀ (t : ReqKind) (s : SocketState),
      nextDelay (onRequestError t s) = nextDelay s * 2 + 93) ∧
    (∀ s : SocketState, (clearBackoff s).backoffMS = 0) := by
  refine ⟨by decide, onRequestError_pendingTimers, ?_, fun s => rfl⟩
  intro t s
  rw [show nextDelay (onRequestError t s) =
        if (onRequestError t s).backoffMS = 0 then 1
        else (onRequestError t s).backoffMS from rfl]
  rw [onRequestError_backoffMS]
  rw [if_neg (by omega : ¬(nextDelay s * 2 + 93 = 0))]

/-- Claim C9: `onRequestError_` surfaces a user-visible retry overlay if
and only if the current (normalized) backoff delay is at least 1000 ms,
exactly one notice per such failure, with display duration equal to that
delay plus 500 ms; the retry itself is scheduled after exactly that
delay. -/
theorem retry_overlay_spec (t : ReqKind) (s : SocketState) :
    (onRequestError t s).overlays =
      s.overlays ++
        (if 1000 ≤ nextDelay s then [nextDelay s + 500] else []) ∧
    (onRequestError t s).pendingTimers =
      s.pendingTimers ++ [(t, nextDelay s)] :=
  ⟨onRequestError_overlays t s, onRequestError_pendingTimers t s⟩

/-- Claim C2 counterexample: the socket holds a single shared
`backoffMS_` field, so a failure handled on the read path changes the
write path's next retry delay.  From a fresh socket the write path's
delay would be 1; after one read failure the very same write failure is
scheduled after 95 ms instead. -/
theorem backoff_not_independent :
    nextDelay initSocket = 1 ∧
    nextDelay (onRequestError .read initSocket) = 95 ∧
    (onRequestError .write initSocket).pendingTimers = [(.write, 1)] ∧
    (onRequestError .write
        (onRequestError .read initSocket)).pendingTimers =
      [(.read, 1), (.write, 95)] ∧
    (95 : Nat) ≠ 1 := by
  decide

/-- Claim C2 amended: the read and write paths share the single backoff
field `backoffMS_`; a failure handled on either path performs the
identical update `backoffMS_ = nextDelay * 2 + 93` of that shared field
(thereby changing the other path's subsequent retry timing), while
leaving the write queue, both byte counters, and all request/delivery
traces of both paths unchanged. -/
theorem backoff_shared_frame (t : ReqKind) (s : SocketState) :
    (onRequestError t s).backoffMS = nextDelay s * 2 + 93 ∧
    (onRequestError .read s).backoffMS = (onRequestError .write s).backoffMS ∧
    (onRequestError t s).writeQueue = s.writeQueue ∧
    (onRequestError t s).writeCount = s.writeCount ∧
    (onRequestError t s).readCount = s.readCount ∧
    (onRequestError t s).sentReads = s.sentReads ∧
    (onRequestError t s).sentWrites = s.sentWrites ∧
    (onRequestError t s).delivered = s.delivered := by
  refine ⟨onRequestError_backoffMS t s, ?_, ?_⟩
  · rw [onRequestError_backoffMS, onRequestError_backoffMS]
  · rw [onRequestError]
    split_ifs <;> exact ⟨rfl, rfl, rfl, rfl, rfl, rfl⟩

/-- The state reached by: session established, first `/read` sent
(`resumeRead_`), that read failing with a transient HTTP 500 (which
schedules a retry of `resumeRead_` after 1 ms), and then `close()` being
called while that retry timer is pending. -/
def closedWithPendingRetry : SocketState :=
  closeStream (onReadReady 500 [] (resumeRead initSocket))

/-- Claim C1 evidence: `close()` cannot cancel a pending backoff retry —
`onRequestError_` discards the `setTimeout` id and `resumeRead_` checks
no lifecycle state — so when the pending timer fires on the closed
stream, `resumeRead_` sends another `/read` network request after
closure. -/
theorem close_retry_still_fires :
    (onReadReady 500 [] (resumeRead initSocket)).pendingTimers =
      [(.read, 1)] ∧
    closedWithPendingRetry.closed = true ∧
    closedWithPendingRetry.pendingTimers = [(.read, 1)] ∧
    (fireTimer closedWithPendingRetry).sentReads = [0, 0] ∧
    (fireTimer closedWithPendingRetry).closed = true := by
  decide

lemma serviceWriteQueue_writeQueue (s : SocketState) :
    (serviceWriteQueue s).writeQueue = s.writeQueue := by
  unfold serviceWriteQueue
  split <;> rfl

lemma serviceWriteQueue_writeCount (s : SocketState) :
    (serviceWriteQueue s).writeCount = s.writeCount := by
  unfold serviceWriteQueue
  split <;> rfl

lemma serviceWriteQueue_sends (s : SocketState) (msg : List Char)
    (rest : List (List Char)) (hq : s.writeQueue = msg :: rest) :
    (serviceWriteQueue s).sentWrites =
      s.sentWrites ++ [(s.writeCount, msg)] := by
  unfold serviceWriteQueue
  rw [hq]

lemma onRequestError_writeQueue (t : ReqKind) (s : SocketState) :
    (onRequestError t s).writeQueue = s.writeQueue := by
  rw [onRequestError]
  split_ifs <;> rfl

lemma onRequestError_writeCount (t : ReqKind) (s : SocketState) :
    (onRequestError t s).writeCount = s.writeCount := by
  rw [onRequestError]
  split_ifs <;> rfl

lemma onRequestError_sentWrites (t : ReqKind) (s : SocketState) :
    (onRequestError t s).sentWrites = s.sentWrites := by
  rw [onRequestError]
  split_ifs <;> rfl

lemma onWriteDone_transient (status : Nat) (s : SocketState)
    (h200 : status ≠ 200) (h410 : status ≠ 410) :
    onWriteDone status s = onRequestError .write s := by
  rw [onWriteDone, if_neg h410, if_pos h200]

/-- Claim C6: on a transient write failure (non-200, non-410 status, or
a network error/abort/timeout, which invokes `onRequestError_`
directly), the head chunk is not popped and the write queue and
`writeCount_` are unchanged; the subsequent retry
(`serviceWriteQueue_`) sends exactly the same head-chunk content at the
same `wcnt`; `writeCount_` advances, by `floor(chunkLength * 3 / 4)`,
exactly when a send of that chunk completes with status 200 (a 410
closes the stream without advancing it). -/
theorem write_retry_same_chunk (s : SocketState) (status : Nat)
    (msg : List Char) (rest : List (List Char))
    (hq : s.writeQueue = msg :: rest)
    (h200 : status ≠ 200) (h410 : status ≠ 410) :
    (onWriteDone status s).writeQueue = s.writeQueue ∧
    (onWriteDone status s).writeCount = s.writeCount ∧
    (serviceWriteQueue (onWriteDone status s)).sentWrites =
      (onWriteDone status s).sentWrites ++ [(s.writeCount, msg)] ∧
    (onRequestError .write s).writeQueue = s.writeQueue ∧
    (onRequestError .write s).writeCount = s.writeCount ∧
    (onWriteDone 200 s).writeQueue = rest ∧
    (onWriteDone 200 s).writeCount = s.writeCount + msg.length * 3 / 4 ∧
    (onWriteDone 410 s).writeCount = s.writeCount ∧
    (onWriteDone 410 s).writeQueue = s.writeQueue := by
  have hOWD := onWriteDone_transient status s h200 h410
  have hsucc : onWriteDone 200 s =
      serviceWriteQueue (clearBackoff
        { s with writeQueue := rest
                 writeCount := s.writeCount + msg.length * 3 / 4 }) := by
    rw [onWriteDone, if_neg (by omega : ¬(200 : Nat) = 410),
        if_neg (by simp : ¬(200 : Nat) ≠ 200), hq]
  have h410c : onWriteDone 410 s = closeStream s := by
    rw [onWriteDone, if_pos rfl]
  refine ⟨?_, ?_, ?_, onRequestError_writeQueue _ s,
    onRequestError_writeCount _ s, ?_, ?_, ?_, ?_⟩
  · rw [hOWD, onRequestError_writeQueue]
  · rw [hOWD, onRequestError_writeCount]
  · rw [hOWD,
      serviceWriteQueue_sends (onRequestError .write s) msg rest
        (by rw [onRequestError_writeQueue, hq]),
      onRequestError_writeCount]
  · rw [hsucc, serviceWriteQueue_writeQueue]
    rfl
  · rw [hsucc, serviceWriteQueue_writeCount]
    rfl
  · rw [h410c]
    rfl
  · rw [h410c]
    rfl

theorem write_retry_same_chunk_witness :
    ({ initSocket with
        writeQueue := [['a', 'b', 'c', 'd'], ['e']] } : SocketState).writeQueue =
      ['a', 'b', 'c', 'd'] :: [['e']] ∧
    (500 : Nat) ≠ 200 ∧ (500 : Nat) ≠ 410 ∧
    (serviceWriteQueue (onWriteDone 500
        { initSocket with writeQueue := [['a', 'b', 'c', 'd'], ['e']] })).sentWrites =
      (onWriteDone 500
        { initSocket with writeQueue := [['a', 'b', 'c', 'd'], ['e']] }).sentWrites ++
        [(0, ['a', 'b', 'c', 'd'])] ∧
    (onWriteDone 200
        { initSocket with writeQueue := [['a', 'b', 'c', 'd'], ['e']] }).writeCount = 3 :=
  have h := write_retry_same_chunk
    { initSocket with writeQueue := [['a', 'b', 'c', 'd'], ['e']] } 500
    ['a', 'b', 'c', 'd'] [['e']] rfl (by decide) (by decide)
  ⟨rfl, by decide, by decide, h.2.2.1, h.2.2.2.2.2.2.1⟩

lemma splitChunks_join (l : List Char) : (splitChunks l).flatten = l := by
  induction l using splitChunks.induct with
  | case1 l h ih =>
    rw [splitChunks, if_pos h, List.flatten, ih, List.take_append_drop]
  | case2 l h =>
    rw [splitChunks, if_neg h]
    simp

lemma splitChunks_le (l : List Char) :
    ∀ c ∈ splitChunks l, c.length ≤ maxMessageLength := by
  induction l using splitChunks.induct with
  | case1 l h ih =>
    rw [splitChunks, if_pos h]
    intro c hc
    rcases List.mem_cons.mp hc with hc | hc
    · subst hc
      simp only [List.length_take]
      omega
    · exact ih c hc
  | case2 l h =>
    rw [splitChunks, if_neg h]
    intro c hc
    rcases List.mem_cons.mp hc with hc | hc
    · subst hc
      omega
    · simp at hc

lemma splitChunks_count (l : List Char) :
    1 ≤ l.length → (splitChunks l).length = (l.length + 1023) / 1024 := by
  induction l using splitChunks.induct with
  | case1 l h ih =>
    intro _
    simp only [maxMessageLength] at h
    rw [splitChunks, if_pos (by simpa [maxMessageLength] using h)]
    rw [List.length_cons, ih (by simp only [List.length_drop, maxMessageLength]; omega)]
    simp only [List.length_drop, maxMessageLength]
    omega
  | case2 l h =>
    intro hl
    simp only [maxMessageLength] at h
    rw [splitChunks, if_neg (by simpa [maxMessageLength] using h)]
    simp only [List.length_singleton]
    omega

/-- Claim C5: for every non-empty input whose web-safe encoding has
length `L > maxMessageLength` (1024), `asyncWrite` appends exactly
`ceil(L / 1024) = (L + 1023) / 1024` chunks to the write queue, each of
length at most 1024, whose in-order concatenation equals the full
web-safe encoding of the input. -/
theorem asyncWrite_chunking (data : List Char) (s : SocketState)
    (hne : data ≠ [])
    (hlong : maxMessageLength < (base64ToWebSafe data).length) :
    (asyncWrite data s).writeQueue =
      s.writeQueue ++ splitChunks (base64ToWebSafe data) ∧
    (splitChunks (base64ToWebSafe data)).length =
      ((base64ToWebSafe data).length + 1023) / 1024 ∧
    (∀ c ∈ splitChunks (base64ToWebSafe data),
      c.length ≤ maxMessageLength) ∧
    (splitChunks (base64ToWebSafe data)).flatten = base64ToWebSafe data ∧
    maxMessageLength = 1024 := by
  refine ⟨?_, splitChunks_count _ (by simp only [maxMessageLength] at hlong; omega),
    splitChunks_le _, splitChunks_join _, rfl⟩
  rw [asyncWrite, if_neg (by simpa using hne)]
  split_ifs with h
  · rw [serviceWriteQueue_writeQueue]
  · rfl

theorem asyncWrite_chunking_witness :
    (List.replicate 1025 'A' : List Char) ≠ [] ∧
    maxMessageLength < (base64ToWebSafe (List.replicate 1025 'A')).length ∧
    (splitChunks (base64ToWebSafe (List.replicate 1025 'A'))).flatten =
      base64ToWebSafe (List.replicate 1025 'A') := by
  have he : base64ToWebSafe (List.replicate 1025 'A') =
      List.replicate 1025 'A' := by
    rw [base64ToWebSafe_of_no_pad _
      (fun c hc => by rw [List.eq_of_mem_replicate hc]; decide)]
    rw [List.map_replicate]
    rfl
  have h1 : (List.replicate 1025 'A' : List Char) ≠ [] := by
    intro hcon
    have hln := congrArg List.length hcon
    rw [List.length_replicate, List.length_nil] at hln
    omega
  have h2 : maxMessageLength <
      (base64ToWebSafe (List.replicate 1025 'A')).length := by
    rw [he, List.length_replicate, maxMessageLength]
    omega
  exact ⟨h1, h2, (asyncWrite_chunking _ initSocket h1 h2).2.2.2.1⟩

lemma onReadReady_410 (body : List Char) (s : SocketState) :
    onReadReady 410 body s = closeStream s := by
  rw [onReadReady, if_pos rfl]

lemma onReadReady_success_fields (s : SocketState) (body d : List Char)
    (h : webSafeToBase64 body = some d) :
    (onReadReady 200 body s).closed = s.closed ∧
    (onReadReady 200 body s).pendingTimers = s.pendingTimers ∧
    (onReadReady 200 body s).sentReads.length = s.sentReads.length + 1 ∧
    (onReadReady 200 body s).delivered.length = s.delivered.length + 1 := by
  rw [onReadReady]
  simp only [if_neg (show ¬(200 : Nat) = 410 by omega),
             if_neg (show ¬(200 : Nat) ≠ 200 by simp), h]
  simp [resumeRead, clearBackoff]

/-- One step of the single-threaded event loop driving the read
pipeline: nothing happens on a closed stream only because no event is
pending in these runs — a pending retry timer fires regardless
(`fireTimer`), and otherwise the response to the single outstanding read
request (attempt index `k`, as tracked against `sentReads`) is handled
by `onReadReady`.  The transport oracle maps the attempt index to the
(HTTP status, response body) it completes with. -/
def readStep (oracle : Nat → Nat × List Char) (s : SocketState) (k : Nat) :
    SocketState × Nat :=
  if s.closed then (s, k)
  else
    match s.pendingTimers with
    | _ :: _ => (fireTimer s, k)
    | [] =>
      if k < s.sentReads.length then
        (onReadReady (oracle k).1 (oracle k).2 s, k + 1)
      else (s, k)

/-- Iterate `readStep` a given number of events; `k` counts the read
responses already handled. -/
def runReadLoop (oracle : Nat → Nat × List Char) :
    Nat → SocketState → Nat → SocketState
  | 0, s, _ => s
  | fuel + 1, s, k =>
    runReadLoop oracle fuel (readStep oracle s k).1 (readStep oracle s k).2

lemma readStep_closed (oracle : Nat → Nat × List Char) (s : SocketState)
    (k : Nat) (h : s.closed = true) : readStep oracle s k = (s, k) := by
  rw [readStep, if_pos h]

lemma runReadLoop_closed (oracle : Nat → Nat × List Char) :
    ∀ (fuel : Nat) (s : SocketState) (k : Nat), s.closed = true →
      runReadLoop oracle fuel s k = s := by
  intro fuel
  induction fuel with
  | zero => intro s k _; rfl
  | succ f ih =>
    intro s k h
    rw [runReadLoop, readStep_closed oracle s k h]
    exact ih s k h

lemma readLoop_run (oracle : Nat → Nat × List Char) :
    ∀ (m : Nat) (s : SocketState) (k fuel : Nat),
      s.closed = false →
      s.pendingTimers = [] →
      s.sentReads.length = k + 1 →
      (∀ j, j < m →
        (oracle (k + j)).1 = 200 ∧ webSafeToBase64 (oracle (k + j)).2 ≠ none) →
      (oracle (k + m)).1 = 410 →
      m + 1 ≤ fuel →
      (runReadLoop oracle fuel s k).closed = true ∧
      (runReadLoop oracle fuel s k).sentReads.length = k + 1 + m ∧
      (runReadLoop oracle fuel s k).delivered.length = s.delivered.length + m := by
  intro m
  induction m with
  | zero =>
    intro s k fuel hcl htm hsr _ h410 hf
    obtain ⟨f, rfl⟩ : ∃ f, fuel = f + 1 := ⟨fuel - 1, by omega⟩
    have hstep : readStep oracle s k =
        (onReadReady (oracle k).1 (oracle k).2 s, k + 1) := by
      rw [readStep, if_neg (by simp [hcl]), htm]
      rw [if_pos (by omega)]
    rw [runReadLoop, hstep]
    have hclose : onReadReady (oracle k).1 (oracle k).2 s = closeStream s := by
      rw [show (oracle (k + 0)).1 = (oracle k).1 by rw [Nat.add_zero]] at h410
      rw [h410, onReadReady_410]
    rw [hclose, runReadLoop_closed oracle f (closeStream s) (k + 1) rfl]
    exact ⟨rfl, by rw [show (closeStream s).sentReads = s.sentReads from rfl]; omega,
      by rw [show (closeStream s).delivered = s.delivered from rfl]; omega⟩
  | succ m ih =>
    intro s k fuel hcl htm hsr hok h410 hf
    obtain ⟨f, rfl⟩ : ∃ f, fuel = f + 1 := ⟨fuel - 1, by omega⟩
    have hstep : readStep oracle s k =
        (onReadReady (oracle k).1 (oracle k).2 s, k + 1) := by
      rw [readStep, if_neg (by simp [hcl]), htm]
      rw [if_pos (by omega)]
    obtain ⟨hs200, hsdec⟩ := hok 0 (by omega)
    rw [Nat.add_zero] at hs200 hsdec
    obtain ⟨d, hd⟩ : ∃ d, webSafeToBase64 (oracle k).2 = some d := by
      cases hw : webSafeToBase64 (oracle k).2 with
      | none => exact absurd hw hsdec
      | some d => exact ⟨d, rfl⟩
    have hfields := onReadReady_success_fields s (oracle k).2 d hd
    rw [runReadLoop, hstep]
    rw [hs200]
    have hres := ih (onReadReady 200 (oracle k).2 s) (k + 1) f
      (by rw [hfields.1, hcl]) (by rw [hfields.2.1, htm])
      (by rw [hfields.2.2.1, hsr])
      (by
        intro j hj
        have hh := hok (j + 1) (by omega)
        rwa [show k + (j + 1) = k + 1 + j by omega] at hh)
      (by rwa [show k + 1 + m = k + (m + 1) by omega])
      (by omega)
    refine ⟨hres.1, by rw [hres.2.1]; omega, ?_⟩
    rw [hres.2.2, hfields.2.2.2]
    omega

/-- Claim C7: when a read request completes with HTTP status 410 the
stream closes immediately and no further read is issued: in every
event-loop run in which the first `n - 1` read attempts succeed (status
200 with decodable bodies) and the `n`-th returns 410, exactly `n - 1`
payloads are delivered to the consumer and exactly `n` read requests are
ever sent, for any amount of remaining fuel. -/
theorem read_410_closes (oracle : Nat → Nat × List Char) (n fuel : Nat)
    (hn : 1 ≤ n)
    (hok : ∀ j, j + 1 < n →
      (oracle j).1 = 200 ∧ webSafeToBase64 (oracle j).2 ≠ none)
    (h410 : (oracle (n - 1)).1 = 410)
    (hfuel : n ≤ fuel) :
    (runReadLoop oracle fuel (resumeRead initSocket) 0).closed = true ∧
    (runReadLoop oracle fuel (resumeRead initSocket) 0).sentReads.length = n ∧
    (runReadLoop oracle fuel (resumeRead initSocket) 0).delivered.length =
      n - 1 := by
  have h := readLoop_run oracle (n - 1) (resumeRead initSocket) 0 fuel
    rfl rfl (by rw [show (resumeRead initSocket).sentReads = [0] from rfl]; rfl)
    (by
      intro j hj
      have hh := hok j (by omega)
      rwa [Nat.zero_add])
    (by rwa [Nat.zero_add])
    (by omega)
  refine ⟨h.1, by rw [h.2.1]; omega, ?_⟩
  rw [h.2.2, show (resumeRead initSocket).delivered = [] from rfl]
  simp

theorem read_410_closes_witness :
    (runReadLoop
        (fun j => if j < 2 then (200, ['A', 'B', 'C', 'D'])
                  else (410, ([] : List Char)))
        10 (resumeRead initSocket) 0).closed = true ∧
    (runReadLoop
        (fun j => if j < 2 then (200, ['A', 'B', 'C', 'D'])
                  else (410, ([] : List Char)))
        10 (resumeRead initSocket) 0).sentReads.length = 3 ∧
    (runReadLoop
        (fun j => if j < 2 then (200, ['A', 'B', 'C', 'D'])
                  else (410, ([] : List Char)))
        10 (resumeRead initSocket) 0).delivered.length = 2 := by
  have h := read_410_closes
    (fun j => if j < 2 then (200, ['A', 'B', 'C', 'D'])
              else (410, ([] : List Char)))
    3 10 (by omega)
    (by
      intro j hj
      simp only []
      rw [if_pos (show j < 2 by omega)]
      exact ⟨rfl, by decide⟩)
    (by norm_num)
    (by omega)
  exact ⟨h.1, h.2.1, h.2.2⟩

end GoogleRelay
